import Mathlib

/-!
Verification of the TradeMood sentiment pipeline core.

Shallow embedding of the scoring/cache/trend/decision pipeline:
`trademood/core/sentiment/analyzer.py`, `trademood/core/sentiment/trend_generator.py`,
`trademood/core/sentiment/signal_generator.py` and the sentiment-cache part of
`trademood/core/database_handler.py`.

Modelling conventions:
* Python floats are modelled as exact rationals (`ℚ`); timestamps as integers
  (minutes since an arbitrary epoch), so the pandas `1h` resampling bins are
  width-60 integer intervals aligned at multiples of 60 (`Int.fdiv`).
* The two NLP scorers are opaque pre-trained functions, so they are oracles:
  `vader : String → ℚ` and `bert : String → Option BertResult`, where `none`
  models the BERT pipeline raising an exception.
* The SQLite `sentiment_cache` table is a list of rows in rowid order;
  `INSERT OR REPLACE` on the `UNIQUE(symbol, source, text)` key deletes any
  conflicting row and appends a fresh row (fresh, larger rowid), and the
  un-ordered `SELECT ... WHERE source = ? AND text = ?` + `fetchone()` returns
  the first row in rowid order.  Keywords are serialized by `",".join` and
  deserialized by `split(",")` exactly as in the source.
* Python's `set(words)` iteration order is unspecified across interpreter runs
  (string hashing is randomized), so keyword extraction is parameterized by an
  enumeration `order` of the distinct candidate words; the unparameterized
  `extractKeywords` fixes first-seen order as one representative enumeration.
* `AnalyzerState` additionally counts scorer invocations and accumulates the
  error log, so that "no second scoring computation" and "the error is logged"
  are formal statements about the state.
-/

namespace TradeMood

/-! ### Python string primitives used by the analyzer -/

/-- Model of Python `str.split()` (split on whitespace runs, dropping empty
tokens): accumulator-based tokenizer over the character list. -/
def splitWsAux : List Char → List Char → List String
  | [], acc => if acc = [] then [] else [String.mk acc]
  | c :: cs, acc =>
    if c.isWhitespace then
      (if acc = [] then splitWsAux cs [] else String.mk acc :: splitWsAux cs [])
    else splitWsAux cs (acc ++ [c])

/-- Python `text.split()`. -/
def pySplitWs (s : String) : List String := splitWsAux s.data []

/-- Python `str.lower()` (ASCII case folding, length preserving). -/
def pyLower (s : String) : String := String.mk (s.data.map Char.toLower)

/-- Python `str.strip()`: drop whitespace from both ends. -/
def pyStrip (l : List Char) : List Char :=
  ((l.dropWhile Char.isWhitespace).reverse.dropWhile Char.isWhitespace).reverse

/-- Python `\w` character class (ASCII model). -/
def isWordChar (c : Char) : Bool := c.isAlphanum || c = '_'

/-- Does the character list start a match of the regex
`http\S+|www\S+|https\S+` (a literal prefix followed by at least one
non-whitespace character)?  `https` is subsumed by the `http` alternative. -/
def startsUrl (l : List Char) : Bool :=
  ("http".data.isPrefixOf l &&
    (match l.drop 4 with | c :: _ => !c.isWhitespace | [] => false)) ||
  ("www".data.isPrefixOf l &&
    (match l.drop 3 with | c :: _ => !c.isWhitespace | [] => false))

/-- One left-to-right pass of `re.sub(r'http\S+|www\S+|https\S+', '', text)`:
at a match start the whole non-whitespace run is consumed (the Boolean state
records that we are inside a consumed run). -/
def removeUrlsGo : Bool → List Char → List Char
  | _, [] => []
  | true, c :: cs => if c.isWhitespace then c :: removeUrlsGo false cs else removeUrlsGo true cs
  | false, c :: cs =>
    if startsUrl (c :: cs) then removeUrlsGo true cs else c :: removeUrlsGo false cs

/-- `re.sub(r'http\S+|www\S+|https\S+', '', text)`. -/
def removeUrls (l : List Char) : List Char := removeUrlsGo false l

/-- One left-to-right pass of `re.sub(r'\@\w+|\#', '', text)`: `@` followed by
at least one word character consumes the whole word-character run, every `#`
is dropped (the Boolean state records that we are inside a consumed run). -/
def removeMentionsGo : Bool → List Char → List Char
  | _, [] => []
  | skip, c :: cs =>
    if skip && isWordChar c then removeMentionsGo true cs
    else if c = '#' then removeMentionsGo false cs
    else if c = '@' && (match cs with | d :: _ => isWordChar d | [] => false) then
      removeMentionsGo true cs
    else c :: removeMentionsGo false cs

/-- `re.sub(r'\@\w+|\#', '', text)`. -/
def removeMentions (l : List Char) : List Char := removeMentionsGo false l

/-- `Analyzer._clean_and_truncate_text`: strip URLs, strip mentions and `#`
markers, `strip()`, then slice to the first `maxLength` characters. -/
def cleanAndTruncate (text : String) (maxLength : Nat := 100) : String :=
  String.mk ((pyStrip (removeMentions (removeUrls text.data))).take maxLength)

/-! ### Keyword extraction (`Analyzer._extract_keywords`) -/

/-- Candidate words: `[word.lower() for word in text.split() if len(word) > 3]`. -/
def wordsOf (text : String) : List String :=
  ((pySplitWs text).filter (fun w => 3 < w.length)).map pyLower

/-- First-seen de-duplication (accumulator of already-seen words). -/
def dedupFirstAux (seen : List String) : List String → List String
  | [] => []
  | x :: xs => if x ∈ seen then dedupFirstAux seen xs else x :: dedupFirstAux (x :: seen) xs

/-- One representative enumeration of `set(words)`: first-seen order. -/
def dedupFirst (l : List String) : List String := dedupFirstAux [] l

/-- Comparison used by `sorted(word_counts.items(), key=lambda x: x[1],
reverse=True)`: descending count. -/
def countGe (a b : String × Nat) : Prop := b.2 ≤ a.2

instance : DecidableRel countGe := fun a b => Nat.decLe b.2 a.2

instance : IsTotal (String × Nat) countGe := ⟨fun a b => le_total b.2 a.2⟩

instance : IsTrans (String × Nat) countGe := ⟨fun _ _ _ hab hbc => le_trans hbc hab⟩

/-- Python's stable `sorted(..., key=lambda x: x[1], reverse=True)`: stable
insertion sort by descending count (ties keep their input order). -/
def sortDesc (l : List (String × Nat)) : List (String × Nat) :=
  List.insertionSort countGe l

/-- `Analyzer._extract_keywords`, parameterized by the iteration order of
`set(words)` (Python fixes this only within one interpreter run): build
`(word, words.count(word))` pairs in enumeration order, stable-sort by
descending count, return the first `top_n` words. -/
def extractKeywordsWith (order : List String) (text : String) (top_n : Nat) : List String :=
  ((sortDesc (order.map (fun w => (w, (wordsOf text).count w)))).take top_n).map Prod.fst

/-- `Analyzer._extract_keywords` with the first-seen representative
enumeration of `set(words)`. -/
def extractKeywords (text : String) (top_n : Nat := 5) : List String :=
  extractKeywordsWith (dedupFirst (wordsOf text)) text top_n

/-! ### Data model -/

/-- `trademood.core.models.sentiment_result.SentimentResult`. -/
structure SentimentResult where
  symbol : String
  text : String
  source : String
  timestamp : ℤ
  vader_score : ℚ
  bert_score : ℚ
  normalized_score : ℚ
  keywords : List String
deriving DecidableEq

/-- `trademood.core.models.trend_signal.TrendSignal`. -/
structure TrendSignal where
  timestamp : ℤ
  short_term_trend : ℚ
  medium_term_trend : ℚ
  long_term_trend : ℚ
  trend_strength : ℚ
  change_direction : ℤ
deriving DecidableEq

/-- `trademood.core.models.trading_signal.TradingSignal`. -/
structure TradingSignal where
  timestamp : ℤ
  symbol : String
  sentiment_score : ℚ
  price : ℚ
  signal : String
  confidence : ℚ
deriving DecidableEq

/-! ### Sentiment cache (`DatabaseHandler`) -/

/-- One row of the `sentiment_cache` table (`UNIQUE(symbol, source, text)`),
with `keywords` serialized as in `cache_sentiment_result`. -/
structure CacheRow where
  symbol : String
  source : String
  text : String
  timestamp : ℤ
  vader_score : ℚ
  bert_score : ℚ
  normalized_score : ℚ
  keywordsStr : String
deriving DecidableEq

/-- `",".join(result.keywords)`. -/
def joinComma : List String → String
  | [] => ""
  | [k] => k
  | k :: k2 :: ks => k ++ "," ++ joinComma (k2 :: ks)

/-- Splitting on every comma, keeping empty pieces (Python `str.split(",")`
on a nonempty string). -/
def splitCommaAux : List Char → List Char → List String
  | [], acc => [String.mk acc]
  | c :: cs, acc =>
    if c = ',' then String.mk acc :: splitCommaAux cs [] else splitCommaAux cs (acc ++ [c])

/-- Python `s.split(",")`. -/
def splitComma (s : String) : List String := splitCommaAux s.data []

/-- `row[7].split(",") if row[7] else []`. -/
def deserializeKeywords (s : String) : List String :=
  if s.data = [] then [] else splitComma s

/-- The row written by `DatabaseHandler.cache_sentiment_result`. -/
def serializeRow (r : SentimentResult) : CacheRow :=
  ⟨r.symbol, r.source, r.text, r.timestamp, r.vader_score, r.bert_score,
    r.normalized_score, joinComma r.keywords⟩

/-- The `SentimentResult` rebuilt by `DatabaseHandler.get_cached_sentiment`
from a row. -/
def deserializeRow (row : CacheRow) : SentimentResult :=
  ⟨row.symbol, row.text, row.source, row.timestamp, row.vader_score,
    row.bert_score, row.normalized_score, deserializeKeywords row.keywordsStr⟩

/-- `WHERE source = ? AND text = ?` row filter. -/
def rowMatches (source text : String) (row : CacheRow) : Bool :=
  row.source == source && row.text == text

/-- `DatabaseHandler.get_cached_sentiment`: first matching row in rowid
order, deserialized. -/
def getCachedSentiment (cache : List CacheRow) (source text : String) :
    Option SentimentResult :=
  (cache.find? (rowMatches source text)).map deserializeRow

/-- `DatabaseHandler.cache_sentiment_result`: `INSERT OR REPLACE` keyed on
`(symbol, source, text)` — delete any conflicting row, append a fresh row. -/
def cacheSentimentResult (cache : List CacheRow) (r : SentimentResult) : List CacheRow :=
  (cache.filter
    (fun row => !(row.symbol == r.symbol && row.source == r.source && row.text == r.text)))
    ++ [serializeRow r]

/-! ### Analyzer (`Analyzer.analyze_text`) -/

/-- Raw output of the BERT sentiment pipeline: a label and a confidence. -/
structure BertResult where
  label : String
  score : ℚ
deriving DecidableEq

/-- `Analyzer._convert_bert_label_to_score`. -/
def convertBertLabelToScore (r : BertResult) : ℚ :=
  if pyLower r.label = "positive" then r.score
  else if pyLower r.label = "negative" then -r.score
  else 0

/-- `Analyzer._normalize_scores`: fixed-weight combination, no weight
parameters at call time. -/
def normalizeScores (vader_score bert_score : ℚ) : ℚ :=
  vader_score * 0.6 + bert_score * 0.4

/-- The analyzer's environment: the two opaque pre-trained scorers and the
current clock.  `bert = none` models the BERT pipeline raising. -/
structure Oracles where
  vader : String → ℚ
  bert : String → Option BertResult
  now : ℤ

/-- Analyzer-visible state: the cache table, the number of invocations of
each scorer, and the error log (contexts passed to `ErrorHandler.log_error`). -/
structure AnalyzerState where
  cache : List CacheRow
  vaderCalls : Nat
  bertCalls : Nat
  errorLog : List String
deriving DecidableEq

/-- The BERT contribution inside `analyze_text`: run the pipeline on the
cleaned/truncated text, convert the label, substitute `0` if it raises. -/
def bertScoreOf (o : Oracles) (text : String) : ℚ :=
  match o.bert (cleanAndTruncate text 100) with
  | some br => convertBertLabelToScore br
  | none => 0

/-- The `SentimentResult` built on a cache miss in `analyze_text`:
`pub_date` if provided else the current time, the VADER compound score on
the raw text, the BERT score, the fixed-weight combination, the extracted
keywords. -/
def freshResult (o : Oracles) (text source symbol : String) (pub_date : Option ℤ) :
    SentimentResult :=
  ⟨symbol, text, source, pub_date.getD o.now, o.vader text, bertScoreOf o text,
    normalizeScores (o.vader text) (bertScoreOf o text), extractKeywords text 5⟩

/-- The analyzer state after a cache miss in `analyze_text`: the result is
written through the cache, both scorers were invoked once more, and a
`ScoringError` context is logged exactly when the BERT pipeline raised. -/
def missState (o : Oracles) (st : AnalyzerState) (text source : String)
    (result : SentimentResult) : AnalyzerState :=
  ⟨cacheSentimentResult st.cache result, st.vaderCalls + 1, st.bertCalls + 1,
    if (o.bert (cleanAndTruncate text 100)).isNone then
      st.errorLog ++ ["BERT analysis for text from " ++ source]
    else st.errorLog⟩

/-- `Analyzer.analyze_text(text, source, symbol, pub_date)`: check the cache
first and return a hit unchanged (no scoring); otherwise build the fresh
result and the updated state. -/
def analyzeText (o : Oracles) (st : AnalyzerState) (text source symbol : String)
    (pub_date : Option ℤ) : Option SentimentResult × AnalyzerState :=
  match getCachedSentiment st.cache source text with
  | some cached => (some cached, st)
  | none =>
    (some (freshResult o text source symbol pub_date),
      missState o st text source (freshResult o text source symbol pub_date))

/-! ### Trend generator (`TrendGenerator`) -/

/-- The `window_sizes` configuration dictionary. -/
structure TrendGenConfig where
  short_term : Nat
  medium_term : Nat
  long_term : Nat

/-- The default `window_sizes`. -/
def defaultWindows : TrendGenConfig := ⟨3, 7, 14⟩

/-- `max(self.window_sizes.values())`. -/
def maxWindow (c : TrendGenConfig) : Nat :=
  max c.short_term (max c.medium_term c.long_term)

/-- `freq_map.get(update_frequency, "1h")` as a bin width in minutes. -/
def freqMinutes (f : String) : ℤ :=
  if f = "5m" then 5
  else if f = "15m" then 15
  else if f = "1h" then 60
  else if f = "4h" then 240
  else if f = "1d" then 1440
  else 60

/-- `df.sort_values('timestamp')`. -/
def timeLe (a b : ℤ × ℚ) : Prop := a.1 ≤ b.1

instance : DecidableRel timeLe := fun a b => Int.decLe a.1 b.1

/-- Sort the `(timestamp, score)` points by timestamp. -/
def sortByTime (l : List (ℤ × ℚ)) : List (ℤ × ℚ) := List.insertionSort timeLe l

/-- Mean of a list of scores (meaningful on nonempty lists). -/
def meanQ (l : List ℚ) : ℚ := l.sum / l.length

/-- Scores falling into time bin `i` for bin width `w` (pandas resampling
bins are `[i*w, (i+1)*w)`, i.e. floor division of the timestamp). -/
def binScores (w : ℤ) (pts : List (ℤ × ℚ)) (i : ℤ) : List ℚ :=
  (pts.filter (fun p => p.1.fdiv w == i)).map Prod.snd

/-- Forward fill: an empty bin takes the most recent preceding bin's value. -/
def ffillGo (carry : ℚ) : List (Option ℚ) → List ℚ
  | [] => []
  | some x :: rest => x :: ffillGo x rest
  | none :: rest => carry :: ffillGo carry rest

/-- `df.set_index('timestamp').resample(freq).mean().ffill()` on sorted
points: one bin per width-`w` interval from the first to the last
observation, bin mean where nonempty, forward-filled where empty. -/
def resampleFfill (w : ℤ) (pts : List (ℤ × ℚ)) : List ℚ :=
  match pts with
  | [] => []
  | p :: rest =>
    let i0 := p.1.fdiv w
    let i1 := ((p :: rest).getLast (List.cons_ne_nil p rest)).1.fdiv w
    ffillGo 0 ((List.range (i1 - i0 + 1).toNat).map
      (fun j =>
        let ss := binScores w (p :: rest) (i0 + j)
        if ss.isEmpty then none else some (meanQ ss)))

/-- The resampled, forward-filled score series produced inside
`generate_trend_signals`. -/
def binnedOf (freq : String) (data : List SentimentResult) : List ℚ :=
  resampleFfill (freqMinutes freq)
    (sortByTime (data.map (fun sr => (sr.timestamp, sr.normalized_score))))

/-- `df['score'].rolling(window=k).mean().iloc[-1]`: `none` models NaN
(window larger than the series) or an invalid window of `0` (pandas raises,
caught by the surrounding `except`). -/
def rollingLast (k : Nat) (l : List ℚ) : Option ℚ :=
  if k = 0 ∨ l.length < k then none else some (meanQ (l.drop (l.length - k)))

/-- `TrendGenerator._calculate_trend_strength`. -/
def calculateTrendStrength (short medium long : ℚ) : ℚ :=
  min ((|short - medium| + |medium - long|) * 10) 1

/-- `TrendGenerator._determine_direction`. -/
def determineDirection (short medium long : ℚ) : ℤ :=
  if short > medium ∧ medium > long then 1
  else if short < medium ∧ medium < long then -1
  else 0

/-- `TrendGenerator.generate_trend_signals`: guard on input length, sort,
resample with forward fill, guard on the number of bins, take the last value
of each rolling mean (NaN check modelled by the `Option` match), build the
signal. -/
def generateTrendSignals (c : TrendGenConfig) (freq : String) (now : ℤ)
    (sentiment_data : List SentimentResult) : Option TrendSignal :=
  if sentiment_data.isEmpty ∨ sentiment_data.length < maxWindow c then none
  else
    let binned := binnedOf freq sentiment_data
    if binned.length < maxWindow c then none
    else
      match rollingLast c.short_term binned, rollingLast c.medium_term binned,
          rollingLast c.long_term binned with
      | some s, some m, some l =>
        some ⟨now, s, m, l, calculateTrendStrength s m l, determineDirection s m l⟩
      | _, _, _ => none

/-! ### Signal generator (`SignalGenerator`) -/

/-- The `thresholds` configuration dictionary. -/
structure Thresholds where
  buy : ℚ
  sell : ℚ
  confidence_threshold : ℚ

/-- The default `thresholds`. -/
def defaultThresholds : Thresholds := ⟨0.5, -0.5, 0.7⟩

/-- The base decision of `generate_trading_signal` (before confidence
gating): strict comparisons of `short_term_trend` against the thresholds. -/
def baseSignal (th : Thresholds) (short : ℚ) : String :=
  if short > th.buy then "BUY"
  else if short < th.sell then "SELL"
  else "HOLD"

/-- `SignalGenerator.generate_trading_signal`: `None` for a missing trend
signal; otherwise base decision, confidence `min(|short|, strength)`, gate to
HOLD below the confidence threshold, emit the signal. -/
def generateTradingSignal (th : Thresholds) (now : ℤ) (symbol : String)
    (trend_signal : Option TrendSignal) (current_price : ℚ) : Option TradingSignal :=
  match trend_signal with
  | none => none
  | some t =>
    let confidence := min |t.short_term_trend| t.trend_strength
    let signal :=
      if confidence < th.confidence_threshold then "HOLD"
      else baseSignal th t.short_term_trend
    some ⟨now, symbol, t.short_term_trend, current_price, signal, confidence⟩

/-! ### Concrete data for witnesses and counterexamples -/

/-- Concrete oracle environment: a neutral lexicon scorer and a learned-model
scorer that always raises. -/
def oracles0 : Oracles := ⟨fun _ => 0, fun _ => none, 0⟩

/-- The analyzer's initial state: empty cache, no scorer calls, empty log. -/
def st0 : AnalyzerState := ⟨[], 0, 0, []⟩

/-- Keywords that survive the cache's comma-join/comma-split serialization:
nonempty and delimiter-free. -/
def KeywordsClean (ks : List String) : Prop := ∀ k ∈ ks, k.data ≠ [] ∧ ',' ∉ k.data

instance (ks : List String) : Decidable (KeywordsClean ks) :=
  inferInstanceAs (Decidable (∀ k ∈ ks, k.data ≠ [] ∧ ',' ∉ k.data))

/-- The result of the first analysis of `"good vibes today"` under `oracles0`. -/
def r1lit : SentimentResult :=
  ⟨"SYM", "good vibes today", "src", 0, 0, 0, 0, ["good", "vibes", "today"]⟩

/-- The analyzer state after that first analysis. -/
def s1lit : AnalyzerState :=
  ⟨[⟨"SYM", "src", "good vibes today", 0, 0, 0, 0, "good,vibes,today"⟩], 1, 1,
    ["BERT analysis for text from src"]⟩

/-- Thirteen one-minute-spaced neutral results: fewer than `max(window_sizes)`. -/
def d13 : List SentimentResult :=
  (List.range 13).map (fun i => ⟨"S", "t", "s", (i : ℤ), 0, 0, 0, []⟩)

/-- Fourteen one-minute-spaced neutral results: enough items, but they all
fall into a single one-hour bin. -/
def d14 : List SentimentResult :=
  (List.range 14).map (fun i => ⟨"S", "t", "s", (i : ℤ), 0, 0, 0, []⟩)

/-- A state whose cache already holds a row stored under symbol `"AAA"`. -/
def stX : AnalyzerState := ⟨[⟨"AAA", "s", "t", 5, 0, 0, 0, ""⟩], 0, 0, []⟩

/-- The deserialization of that stored row. -/
def cX : SentimentResult := ⟨"AAA", "t", "s", 5, 0, 0, 0, []⟩

/-- A trend signal with a strong short-term move but tiny divergence
strength (spec scenario: `short = 0.9`, `strength = 0.01`). -/
def tlit : TrendSignal := ⟨0, 0.9, 0, 0, 0.01, 0⟩

/-- First analysis of the single-token text `"hello,world"`. -/
def firstCall : Option SentimentResult × AnalyzerState :=
  analyzeText oracles0 st0 "hello,world" "src" "SYM" none

/-- Second analysis of the same `(source, text)` pair, hitting the cache. -/
def secondCall : Option SentimentResult × AnalyzerState :=
  analyzeText oracles0 firstCall.2 "hello,world" "src" "SYM" none

/-! ### C5: trend direction -/

/-- Claim C5 (confirmed): for every triple of trend values, the direction is
`+1` iff `short > medium > long` strictly, `-1` iff `short < medium < long`
strictly, and `0` in every other case. -/
theorem determineDirection_strict_chains (s m l : ℚ) :
    (determineDirection s m l = 1 ↔ (s > m ∧ m > l)) ∧
    (determineDirection s m l = -1 ↔ (s < m ∧ m < l)) ∧
    (¬(s > m ∧ m > l) ∧ ¬(s < m ∧ m < l) → determineDirection s m l = 0) := by
  refine ⟨⟨?_, ?_⟩, ⟨?_, ?_⟩, ?_⟩
  all_goals unfold determineDirection
  all_goals intro h
  · by_contra hc
    rw [if_neg hc] at h
    split_ifs at h
    all_goals omega
  · rw [if_pos h]
  · by_cases h1 : s > m ∧ m > l
    · rw [if_pos h1] at h; omega
    · rw [if_neg h1] at h
      by_contra hc
      rw [if_neg hc] at h; omega
  · have h1 : ¬(s > m ∧ m > l) := fun hh => absurd hh.1 (not_lt.mpr h.1.le)
    rw [if_neg h1, if_pos h]
  · rw [if_neg h.1, if_neg h.2]

/-- Witness for C5 at a non-monotonic configuration (`1 > 0` but `0 < 3`). -/
theorem determineDirection_strict_chains_witness :
    determineDirection (1 : ℚ) 0 3 = 0 :=
  (determineDirection_strict_chains 1 0 3).2.2 (by with_unfolding_all decide)

/-! ### C6: trend strength -/

/-- Claim C6 (confirmed): the trend strength equals
`min(10 * (|short - medium| + |medium - long|), 1.0)` and always lies in
`[0, 1]`. -/
theorem calculateTrendStrength_formula_bounds (s m l : ℚ) :
    calculateTrendStrength s m l = min (10 * (|s - m| + |m - l|)) 1 ∧
    0 ≤ calculateTrendStrength s m l ∧ calculateTrendStrength s m l ≤ 1 := by
  unfold calculateTrendStrength
  refine ⟨by rw [mul_comm], le_min (by positivity) zero_le_one, min_le_right _ _⟩

/-! ### C4: base decision thresholds -/

/-- Claim C4 (confirmed): for any threshold configuration with
`sell ≤ buy` (the defaults are `0.5`/`-0.5`), the base decision is BUY exactly
when `short` is strictly above the buy threshold, SELL exactly when strictly
below the sell threshold, HOLD otherwise; `short = buy` yields HOLD. -/
theorem baseSignal_strict_thresholds (th : Thresholds) (short : ℚ)
    (hts : th.sell ≤ th.buy) :
    (baseSignal th short = "BUY" ↔ short > th.buy) ∧
    (baseSignal th short = "SELL" ↔ short < th.sell) ∧
    (baseSignal th short = "HOLD" ↔ (¬short > th.buy ∧ ¬short < th.sell)) ∧
    (short = th.buy → baseSignal th short = "HOLD") := by
  unfold baseSignal
  split_ifs with h1 h2
  · refine ⟨⟨fun _ => h1, fun _ => rfl⟩,
      ⟨fun hstr => absurd hstr (by decide),
        fun hc => absurd h1 (asymm (lt_of_lt_of_le hc hts))⟩,
      ⟨fun hstr => absurd hstr (by decide), fun hc => absurd h1 hc.1⟩,
      fun he => absurd (he ▸ h1) (lt_irrefl th.buy)⟩
  · refine ⟨⟨fun hstr => absurd hstr (by decide), fun hlt => absurd hlt h1⟩,
      ⟨fun _ => h2, fun _ => rfl⟩,
      ⟨fun hstr => absurd hstr (by decide), fun hc => absurd h2 hc.2⟩,
      fun he => absurd (he.symm.trans_lt h2) (not_lt.mpr hts)⟩
  · exact ⟨⟨fun hstr => absurd hstr (by decide), fun hlt => absurd hlt h1⟩,
      ⟨fun hstr => absurd hstr (by decide), fun hlt => absurd hlt h2⟩,
      ⟨fun _ => ⟨h1, h2⟩, fun _ => rfl⟩, fun _ => rfl⟩

/-- Witness for C4 at the default thresholds with `short = buy = 0.5`. -/
theorem baseSignal_strict_thresholds_witness :
    (baseSignal defaultThresholds 0.5 = "BUY" ↔ (0.5 : ℚ) > defaultThresholds.buy) ∧
    (baseSignal defaultThresholds 0.5 = "SELL" ↔ (0.5 : ℚ) < defaultThresholds.sell) ∧
    (baseSignal defaultThresholds 0.5 = "HOLD" ↔
      (¬(0.5 : ℚ) > defaultThresholds.buy ∧ ¬(0.5 : ℚ) < defaultThresholds.sell)) ∧
    ((0.5 : ℚ) = defaultThresholds.buy → baseSignal defaultThresholds 0.5 = "HOLD") :=
  baseSignal_strict_thresholds defaultThresholds 0.5 (by with_unfolding_all decide)

/-! ### C3: confidence and gating -/

/-- Claim C3 (confirmed): every emitted trading signal carries confidence
`min(|short_term_trend|, trend_strength)`; below the configured confidence
threshold the emitted signal is HOLD regardless of the base decision; and a
base-rule HOLD is never converted into BUY or SELL by the gate. -/
theorem generateTradingSignal_confidence_gate (th : Thresholds) (now : ℤ)
    (symbol : String) (t : TrendSignal) (price : ℚ) :
    ∃ sig, generateTradingSignal th now symbol (some t) price = some sig ∧
      sig.confidence = min |t.short_term_trend| t.trend_strength ∧
      (sig.confidence < th.confidence_threshold → sig.signal = "HOLD") ∧
      (baseSignal th t.short_term_trend = "HOLD" → sig.signal = "HOLD") := by
  refine ⟨⟨now, symbol, t.short_term_trend, price,
      if min |t.short_term_trend| t.trend_strength < th.confidence_threshold then "HOLD"
      else baseSignal th t.short_term_trend,
      min |t.short_term_trend| t.trend_strength⟩, rfl, rfl, fun h => ?_, fun hb => ?_⟩
  · exact if_pos h
  · by_cases hcc : min |t.short_term_trend| t.trend_strength < th.confidence_threshold
    · exact if_pos hcc
    · rw [if_neg hcc]; exact hb

/-- Witness for C3: the spec scenario `short = 0.9`, `strength = 0.01` at the
default thresholds. -/
theorem generateTradingSignal_confidence_gate_witness :
    ∃ sig, generateTradingSignal defaultThresholds 0 "AAPL" (some tlit) 100 = some sig ∧
      sig.confidence = min |tlit.short_term_trend| tlit.trend_strength ∧
      (sig.confidence < defaultThresholds.confidence_threshold → sig.signal = "HOLD") ∧
      (baseSignal defaultThresholds tlit.short_term_trend = "HOLD" → sig.signal = "HOLD") :=
  generateTradingSignal_confidence_gate defaultThresholds 0 "AAPL" tlit 100

/-! ### Serialization lemmas for the keyword column -/

theorem data_append (a b : String) : (a ++ b).data = a.data ++ b.data := by
  cases a; cases b; rfl

theorem splitCommaAux_no_comma (t : List Char) :
    ∀ acc, ',' ∉ t → splitCommaAux t acc = [String.mk (acc ++ t)] := by
  induction t with
  | nil => intro acc _; simp [splitCommaAux]
  | cons c cs ih =>
    intro acc h
    rw [List.mem_cons] at h
    push_neg at h
    rw [splitCommaAux, if_neg (fun he => h.1 he.symm), ih _ h.2, List.append_assoc]
    rfl

theorem splitCommaAux_comma (t : List Char) :
    ∀ acc rest, ',' ∉ t →
      splitCommaAux (t ++ ',' :: rest) acc = String.mk (acc ++ t) :: splitCommaAux rest [] := by
  induction t with
  | nil => intro acc rest _; simp [splitCommaAux]
  | cons c cs ih =>
    intro acc rest h
    rw [List.mem_cons] at h
    push_neg at h
    rw [List.cons_append, splitCommaAux, if_neg (fun he => h.1 he.symm), ih _ _ h.2,
      List.append_assoc]
    rfl

theorem deserialize_joinComma (ks : List String) (h : KeywordsClean ks) :
    deserializeKeywords (joinComma ks) = ks := by
  induction ks with
  | nil => with_unfolding_all decide
  | cons k ks ih =>
    cases ks with
    | nil =>
      have hk := h k (List.mem_cons_self k [])
      rw [joinComma, deserializeKeywords, if_neg hk.1, splitComma,
        splitCommaAux_no_comma k.data [] hk.2, List.nil_append]
    | cons k2 ks2 =>
      have hk := h k (List.mem_cons_self k (k2 :: ks2))
      have hrest : KeywordsClean (k2 :: ks2) := fun x hx => h x (List.mem_cons_of_mem _ hx)
      have ihr := ih hrest
      rw [deserializeKeywords] at ihr
      have hj : ¬(joinComma (k2 :: ks2)).data = [] := by
        intro hjd
        rw [if_pos hjd] at ihr
        exact List.cons_ne_nil k2 ks2 ihr.symm
      rw [if_neg hj, splitComma] at ihr
      have hdata : (k ++ "," ++ joinComma (k2 :: ks2)).data
          = k.data ++ ',' :: (joinComma (k2 :: ks2)).data := by
        rw [data_append, data_append, List.append_assoc]
        rfl
      rw [joinComma, deserializeKeywords, if_neg ?_, splitComma, hdata,
        splitCommaAux_comma k.data [] _ hk.2, List.nil_append, ihr]
      rw [hdata]
      simp

theorem deserializeRow_serializeRow (r : SentimentResult) (h : KeywordsClean r.keywords) :
    deserializeRow (serializeRow r) = r := by
  cases r with
  | mk symbol text source ts v b n ks =>
    simp only [serializeRow, deserializeRow, SentimentResult.mk.injEq, true_and]
    exact deserialize_joinComma ks h

/-! ### Cache lookup lemmas -/

theorem find?_append_none {α : Type} (p : α → Bool) (l1 l2 : List α)
    (h : l1.find? p = none) : (l1 ++ l2).find? p = l2.find? p := by
  induction l1 with
  | nil => rfl
  | cons a l ih =>
    cases hpa : p a with
    | true => rw [List.find?_cons_of_pos _ hpa] at h; cases h
    | false =>
      rw [List.find?_cons_of_neg _ (by simp [hpa])] at h
      rw [List.cons_append, List.find?_cons_of_neg _ (by simp [hpa])]
      exact ih h

theorem getCached_insert (cache : List CacheRow) (r : SentimentResult)
    (h : getCachedSentiment cache r.source r.text = none) :
    getCachedSentiment (cacheSentimentResult cache r) r.source r.text
      = some (deserializeRow (serializeRow r)) := by
  have hfind : cache.find? (rowMatches r.source r.text) = none := by
    unfold getCachedSentiment at h
    exact Option.map_eq_none'.mp h
  unfold getCachedSentiment cacheSentimentResult
  rw [find?_append_none]
  · rw [List.find?_cons_of_pos]
    · rfl
    · simp [rowMatches, serializeRow]
  · apply List.find?_eq_none.mpr
    intro row hrow
    exact List.find?_eq_none.mp hfind row (List.mem_of_mem_filter hrow)

/-! ### Analyzer branch lemmas -/

theorem analyzeText_hit (o : Oracles) (st : AnalyzerState) (text source symbol : String)
    (pub : Option ℤ) (c : SentimentResult)
    (hc : getCachedSentiment st.cache source text = some c) :
    analyzeText o st text source symbol pub = (some c, st) := by
  unfold analyzeText
  rw [hc]

theorem analyzeText_miss (o : Oracles) (st : AnalyzerState) (text source symbol : String)
    (pub : Option ℤ) (hc : getCachedSentiment st.cache source text = none) :
    analyzeText o st text source symbol pub
      = (some (freshResult o text source symbol pub),
          missState o st text source (freshResult o text source symbol pub)) := by
  unfold analyzeText
  rw [hc]

/-! ### C1: cache idempotence -/

/-- Counterexample to C1 as stated: analyzing the single-token text
`"hello,world"` produces the keyword list `["hello,world"]`, but the second
call with the same `(source, text)` returns the cache-deserialized keywords
`["hello", "world"]` (the comma-join/comma-split round trip is lossy), so the
two returned results are not identical. -/
theorem analyzeText_cached_keywords_differ :
    Option.map (fun r => r.keywords) firstCall.1 = some ["hello,world"] ∧
    Option.map (fun r => r.keywords) secondCall.1 = some ["hello", "world"] ∧
    secondCall.1 ≠ firstCall.1 := by
  with_unfolding_all decide

/-- Claim C1 (corrected): if the first call returned `res1` and none of its
keywords is empty or contains the `','` serialization delimiter, the second
call with the same `(source, text)` — any symbol, any publish time — returns
exactly `res1` and leaves the state untouched: in particular the scores are
bit-identical and neither scorer invocation counter advances (no second
scoring computation). -/
theorem analyzeText_second_call_cached (o : Oracles) (st : AnalyzerState)
    (text source sym1 sym2 : String) (pub1 pub2 : Option ℤ)
    (res1 : SentimentResult) (s1 : AnalyzerState)
    (h1 : analyzeText o st text source sym1 pub1 = (some res1, s1))
    (hk : KeywordsClean res1.keywords) :
    analyzeText o s1 text source sym2 pub2 = (some res1, s1) := by
  cases hc : getCachedSentiment st.cache source text with
  | some c =>
    rw [analyzeText_hit o st text source sym1 pub1 c hc] at h1
    injection h1 with h1a h1b
    injection h1a with h1a
    subst h1a
    subst h1b
    exact analyzeText_hit o st text source sym2 pub2 _ hc
  | none =>
    rw [analyzeText_miss o st text source sym1 pub1 hc] at h1
    injection h1 with h1a h1b
    injection h1a with h1a
    subst h1a
    subst h1b
    have hc2 : getCachedSentiment
        (missState o st text source (freshResult o text source sym1 pub1)).cache
        source text = some (freshResult o text source sym1 pub1) := by
      have hins := getCached_insert st.cache (freshResult o text source sym1 pub1) hc
      rw [deserializeRow_serializeRow _ hk] at hins
      exact hins
    exact analyzeText_hit o _ text source sym2 pub2 _ hc2

/-- Witness for C1 (amended) on the comma-free text `"good vibes today"`. -/
theorem analyzeText_second_call_cached_witness :
    analyzeText oracles0 s1lit "good vibes today" "src" "OTHER" none = (some r1lit, s1lit) :=
  analyzeText_second_call_cached oracles0 st0 "good vibes today" "src" "SYM" "OTHER"
    none none r1lit s1lit (by with_unfolding_all decide) (by with_unfolding_all decide)

/-! ### C10: cache hits ignore the call's symbol and publish time -/

/-- Claim C10 (confirmed): on a cache hit for `(source, text)` the call
returns the stored result — carrying the symbol and timestamp recorded when
the text was first analyzed — for any symbol and publish-time arguments. -/
theorem analyzeText_cache_hit_ignores_arguments (o : Oracles) (st : AnalyzerState)
    (text source sym1 sym2 : String) (pub1 pub2 : Option ℤ) (c : SentimentResult)
    (h : getCachedSentiment st.cache source text = some c) :
    analyzeText o st text source sym1 pub1 = (some c, st) ∧
    analyzeText o st text source sym2 pub2 = (some c, st) :=
  ⟨analyzeText_hit o st text source sym1 pub1 c h,
    analyzeText_hit o st text source sym2 pub2 c h⟩

/-- Witness for C10: the cached row was stored under symbol `"AAA"`; calls
asking about symbols `"BBB"` and `"CCC"` both get the `"AAA"` result back. -/
theorem analyzeText_cache_hit_ignores_arguments_witness :
    (analyzeText oracles0 stX "t" "s" "BBB" none = (some cX, stX) ∧
      analyzeText oracles0 stX "t" "s" "CCC" (some 9) = (some cX, stX)) ∧
    cX.symbol ≠ "BBB" :=
  ⟨analyzeText_cache_hit_ignores_arguments oracles0 stX "t" "s" "BBB" "CCC" none (some 9) cX
      (by with_unfolding_all decide),
    by with_unfolding_all decide⟩

/-! ### C2: fixed-weight combination -/

/-- Claim C2 (confirmed): provided every cached row satisfies the
combination invariant (which every row written by the analyzer does), any
result returned by `analyze_text` satisfies
`normalized_score = 0.6 * vader_score + 0.4 * bert_score`; the weights are
fixed constants of the code, not call-time parameters. -/
theorem analyzeText_normalized_weights (o : Oracles) (st : AnalyzerState)
    (text source symbol : String) (pub : Option ℤ)
    (hc : ∀ row ∈ st.cache,
      row.normalized_score = 0.6 * row.vader_score + 0.4 * row.bert_score) :
    ∀ r, (analyzeText o st text source symbol pub).1 = some r →
      r.normalized_score = 0.6 * r.vader_score + 0.4 * r.bert_score := by
  intro r hr
  cases hcache : getCachedSentiment st.cache source text with
  | some c =>
    rw [analyzeText_hit o st text source symbol pub c hcache] at hr
    injection hr with hr
    subst hr
    unfold getCachedSentiment at hcache
    cases hfind : st.cache.find? (rowMatches source text) with
    | none => rw [hfind] at hcache; cases hcache
    | some row =>
      rw [hfind] at hcache
      injection hcache with hcache
      subst hcache
      exact hc row (List.mem_of_find?_eq_some hfind)
  | none =>
    rw [analyzeText_miss o st text source symbol pub hcache] at hr
    injection hr with hr
    subst hr
    show normalizeScores (o.vader text) (bertScoreOf o text)
      = 0.6 * o.vader text + 0.4 * bertScoreOf o text
    unfold normalizeScores
    ring

/-- Witness for C2 on the first analysis of `"good vibes today"`. -/
theorem analyzeText_normalized_weights_witness :
    r1lit.normalized_score = 0.6 * r1lit.vader_score + 0.4 * r1lit.bert_score :=
  analyzeText_normalized_weights oracles0 st0 "good vibes today" "src" "SYM" none
    (by intro row hrow; cases hrow) r1lit (by with_unfolding_all decide)

/-! ### C8: BERT failure is absorbed -/

/-- Claim C8 (confirmed): on a cache miss where the learned-model scorer
raises, the analysis still produces a result whose `bert_score` is `0` and
whose `normalized_score` is exactly the lexicon contribution
`0.6 * vader_score`, and the error context is appended to the log. -/
theorem analyzeText_bert_failure_neutral (o : Oracles) (st : AnalyzerState)
    (text source symbol : String) (pub : Option ℤ)
    (hmiss : getCachedSentiment st.cache source text = none)
    (hbert : o.bert (cleanAndTruncate text 100) = none) :
    ∃ r, (analyzeText o st text source symbol pub).1 = some r ∧
      r.bert_score = 0 ∧ r.vader_score = o.vader text ∧
      r.normalized_score = 0.6 * o.vader text ∧
      (analyzeText o st text source symbol pub).2.errorLog
        = st.errorLog ++ ["BERT analysis for text from " ++ source] := by
  have hbs : bertScoreOf o text = 0 := by
    unfold bertScoreOf
    rw [hbert]
  refine ⟨freshResult o text source symbol pub, ?_, hbs, rfl, ?_, ?_⟩
  · rw [analyzeText_miss o st text source symbol pub hmiss]
  · show normalizeScores (o.vader text) (bertScoreOf o text) = 0.6 * o.vader text
    rw [hbs]
    unfold normalizeScores
    ring
  · rw [analyzeText_miss o st text source symbol pub hmiss]
    show (if (o.bert (cleanAndTruncate text 100)).isNone then
        st.errorLog ++ ["BERT analysis for text from " ++ source]
      else st.errorLog) = _
    rw [hbert]
    rfl

/-- Witness for C8: under `oracles0` the learned-model scorer always raises. -/
theorem analyzeText_bert_failure_neutral_witness :
    ∃ r, (analyzeText oracles0 st0 "bad day" "s" "A" none).1 = some r ∧
      r.bert_score = 0 ∧ r.vader_score = oracles0.vader "bad day" ∧
      r.normalized_score = 0.6 * oracles0.vader "bad day" ∧
      (analyzeText oracles0 st0 "bad day" "s" "A" none).2.errorLog
        = st0.errorLog ++ ["BERT analysis for text from " ++ "s"] :=
  analyzeText_bert_failure_neutral oracles0 st0 "bad day" "s" "A" none rfl rfl

/-! ### C7: insufficient data returns None -/

/-- Claim C7 (confirmed): `generate_trend_signals` returns `None` when the
input has fewer items than the largest configured window, and also when the
resampled, forward-filled series has fewer bins than that maximum. -/
theorem generateTrendSignals_insufficient_data (c : TrendGenConfig) (freq : String)
    (now : ℤ) (data : List SentimentResult) :
    (data.length < maxWindow c → generateTrendSignals c freq now data = none) ∧
    ((binnedOf freq data).length < maxWindow c →
      generateTrendSignals c freq now data = none) := by
  constructor
  · intro h
    simp only [generateTrendSignals]
    rw [if_pos (Or.inr h)]
  · intro h
    by_cases h1 : data.isEmpty ∨ data.length < maxWindow c
    · simp only [generateTrendSignals]
      rw [if_pos h1]
    · simp only [generateTrendSignals]
      rw [if_neg h1, if_pos h]

/-- Witness for C7: 13 items are too few outright; 14 one-minute-spaced
items survive the first guard but collapse into a single one-hour bin. -/
theorem generateTrendSignals_insufficient_data_witness :
    generateTrendSignals defaultWindows "1h" 0 d13 = none ∧
    generateTrendSignals defaultWindows "1h" 0 d14 = none :=
  ⟨(generateTrendSignals_insufficient_data defaultWindows "1h" 0 d13).1
      (by with_unfolding_all decide),
    (generateTrendSignals_insufficient_data defaultWindows "1h" 0 d14).2
      (by with_unfolding_all decide)⟩

/-! ### C9: keyword extraction and tie order -/

theorem mem_dedupFirstAux (a : String) (l : List String) :
    ∀ seen, a ∈ dedupFirstAux seen l ↔ a ∈ l ∧ a ∉ seen := by
  induction l with
  | nil => intro seen; simp [dedupFirstAux]
  | cons x xs ih =>
    intro seen
    by_cases hx : x ∈ seen
    · rw [dedupFirstAux, if_pos hx, ih seen]
      constructor
      · rintro ⟨hmem, hns⟩
        exact ⟨List.mem_cons_of_mem _ hmem, hns⟩
      · rintro ⟨hmem, hns⟩
        rcases List.mem_cons.mp hmem with rfl | hmem
        · exact absurd hx hns
        · exact ⟨hmem, hns⟩
    · rw [dedupFirstAux, if_neg hx]
      simp only [List.mem_cons, ih (x :: seen)]
      constructor
      · rintro (rfl | ⟨hmem, hns⟩)
        · exact ⟨Or.inl rfl, hx⟩
        · exact ⟨Or.inr hmem, fun hs => hns (Or.inr hs)⟩
      · rintro ⟨rfl | hmem, hns⟩
        · exact Or.inl rfl
        · by_cases hax : a = x
          · exact Or.inl hax
          · exact Or.inr ⟨hmem, fun hs => hs.elim hax hns⟩

theorem nodup_dedupFirstAux (l : List String) : ∀ seen, (dedupFirstAux seen l).Nodup := by
  induction l with
  | nil => intro seen; simp [dedupFirstAux]
  | cons x xs ih =>
    intro seen
    by_cases hx : x ∈ seen
    · rw [dedupFirstAux, if_pos hx]
      exact ih seen
    · rw [dedupFirstAux, if_neg hx, List.nodup_cons]
      refine ⟨fun hmem => ?_, ih (x :: seen)⟩
      exact ((mem_dedupFirstAux x xs (x :: seen)).mp hmem).2 (List.mem_cons_self x seen)

theorem mem_dedupFirst (a : String) (l : List String) : a ∈ dedupFirst l ↔ a ∈ l := by
  rw [dedupFirst, mem_dedupFirstAux]
  simp

theorem nodup_dedupFirst (l : List String) : (dedupFirst l).Nodup :=
  nodup_dedupFirstAux l []

/-- Counterexample to C9 as stated: on the text `"abcd efgh"` both candidate
words are tied at frequency 1, and the two possible enumerations of the
de-duplicated candidate set (Python's `set(words)`, whose iteration order is
hash-randomized across interpreter runs) produce different ordered keyword
lists, so repeated runs need not return the identical ordered list. -/
theorem extractKeywords_tie_order_dependent :
    (["abcd", "efgh"] : List String).Perm (dedupFirst (wordsOf "abcd efgh")) ∧
    (["efgh", "abcd"] : List String).Perm (dedupFirst (wordsOf "abcd efgh")) ∧
    extractKeywordsWith ["abcd", "efgh"] "abcd efgh" 5
      ≠ extractKeywordsWith ["efgh", "abcd"] "abcd efgh" 5 := by
  with_unfolding_all decide

/-- Claim C9 (corrected): for every enumeration of the de-duplicated
candidate set (tokenize on whitespace, keep tokens longer than 3 characters,
lowercase), extraction returns at most `top_n` distinct candidate tokens
ranked by nonincreasing in-text frequency; the function is deterministic
given the enumeration, but the enumeration itself (Python's `set` order) is
what breaks frequency ties, and it is not fixed across interpreter runs. -/
theorem extractKeywordsWith_ranked (order : List String) (text : String) (n : Nat)
    (h : order.Perm (dedupFirst (wordsOf text))) :
    (extractKeywordsWith order text n).length ≤ n ∧
    (∀ w ∈ extractKeywordsWith order text n, w ∈ wordsOf text) ∧
    (extractKeywordsWith order text n).Nodup ∧
    List.Pairwise (fun a b => (wordsOf text).count b ≤ (wordsOf text).count a)
      (extractKeywordsWith order text n) := by
  have hperm : List.Perm (sortDesc (order.map (fun w => (w, (wordsOf text).count w))))
      (order.map (fun w => (w, (wordsOf text).count w))) :=
    List.perm_insertionSort countGe _
  have hsorted : List.Sorted countGe
      (sortDesc (order.map (fun w => (w, (wordsOf text).count w)))) :=
    List.sorted_insertionSort countGe _
  have hsub : List.Sublist
      ((sortDesc (order.map (fun w => (w, (wordsOf text).count w)))).take n)
      (sortDesc (order.map (fun w => (w, (wordsOf text).count w)))) :=
    List.take_sublist n _
  have hmem : ∀ p ∈ (sortDesc (order.map (fun w => (w, (wordsOf text).count w)))).take n,
      p.2 = (wordsOf text).count p.1 ∧ p.1 ∈ wordsOf text := by
    intro p hp
    have hp2 : p ∈ order.map (fun w => (w, (wordsOf text).count w)) :=
      hperm.mem_iff.mp (hsub.subset hp)
    obtain ⟨w, hw, rfl⟩ := List.mem_map.mp hp2
    exact ⟨rfl, (mem_dedupFirst w (wordsOf text)).mp (h.subset hw)⟩
  refine ⟨?_, ?_, ?_, ?_⟩
  · unfold extractKeywordsWith
    rw [List.length_map, List.length_take]
    exact min_le_left _ _
  · intro w hw
    unfold extractKeywordsWith at hw
    obtain ⟨p, hp, rfl⟩ := List.mem_map.mp hw
    exact (hmem p hp).2
  · unfold extractKeywordsWith
    have hnodup : order.Nodup := h.nodup_iff.mpr (nodup_dedupFirst _)
    have hpairsfst : List.Pairwise (fun a b : String × Nat => a.1 ≠ b.1)
        (order.map (fun w => (w, (wordsOf text).count w))) := by
      rw [List.pairwise_map]
      exact hnodup
    have hsortedfst := (hperm.pairwise_iff (fun hab => hab.symm)).mpr hpairsfst
    exact List.pairwise_map.mpr (List.Pairwise.sublist hsub hsortedfst)
  · unfold extractKeywordsWith
    apply List.pairwise_map.mpr
    apply List.Pairwise.imp_of_mem ?_ (List.Pairwise.sublist hsub hsorted)
    intro a b ha hb hab
    rw [← (hmem a ha).1, ← (hmem b hb).1]
    exact hab

/-- Witness for C9 (amended) on `"good good vibes"` with the first-seen
enumeration. -/
theorem extractKeywordsWith_ranked_witness :
    (extractKeywordsWith (dedupFirst (wordsOf "good good vibes")) "good good vibes" 5).length
        ≤ 5 ∧
    (∀ w ∈ extractKeywordsWith (dedupFirst (wordsOf "good good vibes")) "good good vibes" 5,
      w ∈ wordsOf "good good vibes") ∧
    (extractKeywordsWith (dedupFirst (wordsOf "good good vibes")) "good good vibes" 5).Nodup ∧
    List.Pairwise
      (fun a b => (wordsOf "good good vibes").count b ≤ (wordsOf "good good vibes").count a)
      (extractKeywordsWith (dedupFirst (wordsOf "good good vibes")) "good good vibes" 5) :=
  extractKeywordsWith_ranked (dedupFirst (wordsOf "good good vibes")) "good good vibes" 5
    (List.Perm.refl _)

end TradeMood
